import Mathlib

/-!
Verification of the registry access layer of the npm-mcp repository
(`src/registry-client.ts`): the cache + concurrency-limit + retry pipeline
behind the four read operations (`getPackage`, `getPackageVersion`,
`searchPackages`, `getDownloadStats`).

The TypeScript code is shallowly embedded: JSON documents become the
inductive `Json`, thrown JavaScript errors become `JsError` (name and
message), a network transport is a function from the attempt index to a
`FetchOutcome`, and `fetchWithRetry` / `fetchWithCache` are translated
statement by statement, including JavaScript truthiness where the source
relies on it (`config.timeout || 10000`, `if (cached)`,
`errorBody.error || ...`).
-/

/-- A parsed JSON document, the value type flowing through the pipeline
(the result of `response.json()`), opaque to the cache. -/
inductive Json where
  | null
  | bool (b : Bool)
  | num (n : Int)
  | str (s : String)
  | arr (elems : List Json)
  | obj (fields : List (String × Json))
deriving Repr

/-- JavaScript truthiness of a JSON value: `null`, `false`, `0` and `""`
are falsy; every object and array is truthy. -/
def Json.truthy : Json → Bool
  | .null => false
  | .bool b => b
  | .num n => n != 0
  | .str s => s != ""
  | .arr _ => true
  | .obj _ => true

/-- Whether a JSON value is `null`. -/
def Json.isNull : Json → Bool
  | .null => true
  | _ => false

/-- JavaScript string coercion (`String(v)` / template interpolation) of a
JSON value: arrays join their elements with commas (`null` joining as the
empty string), plain objects render as `[object Object]`. -/
def Json.toJSString : Json → String
  | .null => "null"
  | .bool true => "true"
  | .bool false => "false"
  | .num n => toString n
  | .str s => s
  | .obj _ => "[object Object]"
  | .arr elems => String.intercalate "," (elems.attach.map fun e =>
      if e.1.isNull then "" else Json.toJSString e.1)
decreasing_by
  have h1 : sizeOf e.1 < sizeOf elems := List.sizeOf_lt_of_mem e.2
  simp only [Json.arr.sizeOf_spec]
  omega

/-- A thrown JavaScript error as observed by a `catch` block: its `name`
and its `message`. -/
structure JsError where
  name : String
  message : String
deriving Repr, DecidableEq

/-- `pat` matched as a prefix of `text`, on character lists. -/
def startsWithChars : List Char → List Char → Bool
  | [], _ => true
  | _ :: _, [] => false
  | p :: ps, t :: ts => p == t && startsWithChars ps ts

/-- `pat` occurring somewhere in `text`, on character lists. -/
def occursInChars (pat : List Char) : List Char → Bool
  | [] => startsWithChars pat []
  | t :: ts => startsWithChars pat (t :: ts) || occursInChars pat ts

/-- JavaScript `s.includes(pat)`. -/
def jsIncludes (s pat : String) : Bool :=
  occursInChars pat.toList s.toList

/-- The transient-error test of the `catch` block in `fetchWithRetry`:
the message contains `ECONNRESET`, `ETIMEDOUT` or `fetch failed`. -/
def isTransientMsg (m : String) : Bool :=
  jsIncludes m "ECONNRESET" || jsIncludes m "ETIMEDOUT" || jsIncludes m "fetch failed"

/-- JavaScript member access `j.k` on a parsed JSON value: reading a
property of `null` throws a `TypeError`; reading an absent property or a
property of a non-object primitive yields `undefined` (`none`). -/
def jsMember (j : Json) (k : String) : Except JsError (Option Json) :=
  match j with
  | .null => .error ⟨"TypeError", s!"Cannot read properties of null (reading {k})"⟩
  | .obj fields => .ok ((fields.find? (fun p => p.1 == k)).map (fun p => p.2))
  | _ => .ok none

/-- The outcome the runtime hands one `fetch` attempt: either the fetch
promise rejects (`thrown`, e.g. an `AbortError` when the per-attempt
timeout fires), or it resolves with a status code together with the result
of the single `response.json()` call the code performs on that response
(which may itself throw, e.g. a `SyntaxError` on a malformed body). -/
inductive FetchOutcome where
  | thrown (e : JsError)
  | response (status : Nat) (body : Except JsError Json)
deriving Repr

/-- Retry configuration threaded through `fetchWithRetry`
(`attempt` 0-based, `maxAttempts` = `maxRetries`, `baseDelay` in ms). -/
structure RetryConfig where
  attempt : Nat
  maxAttempts : Nat
  baseDelay : ℚ
deriving Repr

/-- `calculateBackoff`: `baseDelay * 2^attempt + jitter`, where `jitter`
stands for the `Math.random() * 1000` draw of that call. -/
def calculateBackoff (config : RetryConfig) (jitter : ℚ) : ℚ :=
  config.baseDelay * 2 ^ config.attempt + jitter

/-- The fallback message of the `status >= 400` branch:
`HTTP {status}: {errorBody.reason or "Unknown error"}`, with the `reason`
field subject to JavaScript truthiness. -/
def httpFallbackMsg (j : Json) (status : Nat) : String :=
  match jsMember j "reason" with
  | .ok (some v) =>
    if v.truthy then s!"HTTP {status}: " ++ v.toJSString
    else s!"HTTP {status}: Unknown error"
  | _ => s!"HTTP {status}: Unknown error"

/-- The error thrown by the `status >= 400` branch of `fetchWithRetry`
once the body parsed to `j`: `errorBody.error` if truthy (coerced to a
string by the `Error` constructor), otherwise the `httpFallbackMsg`;
member access on a `null` body itself throws a `TypeError`. -/
def errorBranchRaise (j : Json) (status : Nat) : JsError :=
  match jsMember j "error" with
  | .error e => e
  | .ok errField =>
    match errField with
    | some v =>
      if v.truthy then ⟨"Error", v.toJSString⟩
      else ⟨"Error", httpFallbackMsg j status⟩
    | none => ⟨"Error", httpFallbackMsg j status⟩

/-- What the `try` block of `fetchWithRetry` does with one attempt outcome,
before the budget checks: a 429 status enters the rate-limit branch; 404
throws `Package not found`; any other status ≥ 400 throws the error derived
from the parsed error body; otherwise the parsed body is the result. Any
thrown error (including those the branches themselves throw) reaches the
`catch` block as `raised`. -/
inductive TryStep where
  | rate429
  | value (j : Json)
  | raised (e : JsError)
deriving Repr

/-- The `try` block of `fetchWithRetry` on one attempt outcome. -/
def classifyTry : FetchOutcome → TryStep
  | .thrown e => .raised e
  | .response status body =>
    if status == 429 then .rate429
    else if status == 404 then .raised ⟨"Error", "Package not found"⟩
    else if 400 ≤ status then
      match body with
      | .error e => .raised e
      | .ok j => .raised (errorBranchRaise j status)
    else
      match body with
      | .error e => .raised e
      | .ok j => .value j

/-- The observable result of one `fetchWithRetry` invocation: the settled
value or rejection message, the number of network attempts made, and the
list of backoff delays slept between attempts. -/
structure RetryResult where
  result : Except String Json
  attempts : Nat
  delays : List ℚ
deriving Repr

/-- `fetchWithRetry`, with the transport (attempt index ↦ outcome) and the
jitter draws (attempt index ↦ `Math.random() * 1000` value) made explicit.
A 429 within budget, or a caught error whose name is not `AbortError` and
whose message is transient, sleeps the backoff and recurses with
`attempt + 1` (the recursive call is returned without `await`, so its
rejection bypasses this level's `catch`, as in the source). An
`AbortError` becomes `Request timeout`; an exhausted 429 becomes the
rate-limit message; every other error is rethrown. -/
def fetchWithRetry (transport : Nat → FetchOutcome) (jitter : Nat → ℚ)
    (cfg : RetryConfig) : RetryResult :=
  match classifyTry (transport cfg.attempt) with
  | .rate429 =>
    if h : cfg.attempt < cfg.maxAttempts then
      let d := calculateBackoff cfg (jitter cfg.attempt)
      let r := fetchWithRetry transport jitter
        ⟨cfg.attempt + 1, cfg.maxAttempts, cfg.baseDelay⟩
      ⟨r.result, r.attempts + 1, d :: r.delays⟩
    else ⟨.error "Rate limit exceeded. Please try again later.", 1, []⟩
  | .value j => ⟨.ok j, 1, []⟩
  | .raised e =>
    if e.name == "AbortError" then ⟨.error "Request timeout", 1, []⟩
    else if h : isTransientMsg e.message = true ∧ cfg.attempt < cfg.maxAttempts then
      let d := calculateBackoff cfg (jitter cfg.attempt)
      let r := fetchWithRetry transport jitter
        ⟨cfg.attempt + 1, cfg.maxAttempts, cfg.baseDelay⟩
      ⟨r.result, r.attempts + 1, d :: r.delays⟩
    else ⟨.error e.message, 1, []⟩
termination_by cfg.maxAttempts - cfg.attempt
decreasing_by
  · omega
  · omega

/-- One cache entry. Modelled from the spec: the `lru-cache` dependency is
not part of the repository source; per §3 of the spec an entry carries its
key (the request URL), the parsed JSON value, its insertion time (for the
TTL) and its last-access time (for LRU eviction). -/
structure CacheEntry where
  key : String
  value : Json
  insertedAt : Nat
  lastAccess : Nat
deriving Repr

/-- The cache: capacity, TTL (ms) and entry list. Modelled from the spec
(`lru-cache` dependency): entries expire `ttl` ms after insertion and the
least-recently-used entry is evicted when capacity is exceeded. -/
structure CacheState where
  maxSize : Nat
  ttl : Nat
  entries : List CacheEntry
deriving Repr

/-- Whether an entry is still live (within its TTL) at time `now`. -/
def CacheEntry.live (e : CacheEntry) (ttl now : Nat) : Bool :=
  now < e.insertedAt + ttl

/-- A cache with no entries. -/
def emptyCache (maxSize ttl : Nat) : CacheState := ⟨maxSize, ttl, []⟩

/-- Refresh the recency (`lastAccess`) of the entry for `k`. Modelled from
the spec (`lru-cache` dependency). -/
def bumpEntries (es : List CacheEntry) (k : String) (now : Nat) :
    List CacheEntry :=
  es.map (fun x => if x.key == k then { x with lastAccess := now } else x)

/-- `cache.get(key)` at time `now`: a live entry returns its value and has
its recency refreshed; a missing or expired entry returns `undefined`
(`none`). Modelled from the spec (`lru-cache` dependency). -/
def CacheState.get (c : CacheState) (now : Nat) (k : String) :
    Option Json × CacheState :=
  match c.entries.find? (fun e => e.key == k) with
  | some e =>
    if e.live c.ttl now then
      (some e.value, { c with entries := bumpEntries c.entries k now })
    else (none, c)
  | none => (none, c)

/-- Evict one least-recently-used entry. Modelled from the spec
(`lru-cache` dependency). -/
def evictLRU (es : List CacheEntry) : List CacheEntry :=
  match es.argmin (fun e => e.lastAccess) with
  | some m => es.eraseP (fun e => e.lastAccess == m.lastAccess)
  | none => []

/-- `cache.set(key, value)` at time `now`: replace an existing entry for
the key, otherwise insert a fresh entry, evicting the least-recently-used
entry first when the cache is full. Modelled from the spec (`lru-cache`
dependency). -/
def CacheState.set (c : CacheState) (now : Nat) (k : String) (v : Json) :
    CacheState :=
  if (c.entries.find? (fun e => e.key == k)).isSome then
    let replaced := c.entries.map
      (fun x => if x.key == k then ⟨k, v, now, now⟩ else x)
    { c with entries := replaced }
  else if c.entries.length < c.maxSize then
    { c with entries := ⟨k, v, now, now⟩ :: c.entries }
  else
    { c with entries := ⟨k, v, now, now⟩ :: evictLRU c.entries }

/-- The constructor configuration object (`RegistryClientConfig`); `none`
is an absent (undefined) field. -/
structure RegistryClientConfig where
  registryUrl : Option String := none
  timeout : Option Nat := none
  maxRetries : Option Nat := none
  cacheMaxSize : Option Nat := none
  cacheTTL : Option Nat := none
  maxConcurrent : Option Nat := none
deriving Repr

/-- JavaScript `x || d` for an optional numeric field: `undefined` and `0`
both fall back to the default. -/
def jsOrNat (x : Option Nat) (d : Nat) : Nat :=
  match x with
  | none => d
  | some v => if v == 0 then d else v

/-- JavaScript `x || d` for an optional string field: `undefined` and the
empty string both fall back to the default. -/
def jsOrStr (x : Option String) (d : String) : String :=
  match x with
  | none => d
  | some s => if s == "" then d else s

/-- The resolved fields of a constructed `RegistryClient`. -/
structure RegistryClient where
  registryUrl : String
  timeout : Nat
  maxRetries : Nat
  cacheMaxSize : Nat
  cacheTTL : Nat
  maxConcurrent : Nat
deriving Repr, DecidableEq

/-- The `RegistryClient` constructor: each config field is resolved with
JavaScript `||` against its default (`https://registry.npmjs.org`, 10000ms
timeout, 3 retries, 500 entries, 5-minute TTL, 10 concurrent). -/
def mkRegistryClient (config : RegistryClientConfig) : RegistryClient :=
  ⟨jsOrStr config.registryUrl "https://registry.npmjs.org",
   jsOrNat config.timeout 10000,
   jsOrNat config.maxRetries 3,
   jsOrNat config.cacheMaxSize 500,
   jsOrNat config.cacheTTL (5 * 60 * 1000),
   jsOrNat config.maxConcurrent 10⟩

/-- Uppercase hexadecimal digit. -/
def hexDigitUpper (n : Nat) : Char :=
  if n < 10 then Char.ofNat (48 + n) else Char.ofNat (55 + n)

/-- The UTF-8 encoding of one character, as byte values. -/
def utf8Bytes (c : Char) : List Nat :=
  let n := c.toNat
  if n < 128 then [n]
  else if n < 2048 then [192 + n / 64, 128 + n % 64]
  else if n < 65536 then
    [224 + n / 4096, 128 + (n / 64) % 64, 128 + n % 64]
  else
    [240 + n / 262144, 128 + (n / 4096) % 64, 128 + (n / 64) % 64,
     128 + n % 64]

/-- `%XX` percent-escape of one byte, uppercase hex. -/
def percentEncodeByte (b : Nat) : String :=
  String.mk ['%', hexDigitUpper (b / 16 % 16), hexDigitUpper (b % 16)]

/-- The characters `encodeURIComponent` leaves unescaped:
`A-Z a-z 0-9 - _ . ! ~ * ' ( )` (ECMA-262 `uriUnescaped`). -/
def uriUnescapedChar (c : Char) : Bool :=
  c.isAlpha || c.isDigit || c == '-' || c == '_' || c == '.' || c == '!' ||
    c == '~' || c == '*' || c.toNat == 39 || c == '(' || c == ')'

/-- ECMA-262 `encodeURIComponent`: every UTF-8 byte outside the
`uriUnescaped` set is percent-escaped with uppercase hex. -/
def encodeURIComponent (s : String) : String :=
  String.join ((s.toList.map utf8Bytes).join.map (fun b =>
    if b < 128 && uriUnescapedChar (Char.ofNat b) then
      String.singleton (Char.ofNat b)
    else percentEncodeByte b))

/-- The request URL built by `getPackage`:
`{registryUrl}/{encodeURIComponent(packageName)}`. -/
def getPackageUrl (registryUrl packageName : String) : String :=
  registryUrl ++ "/" ++ encodeURIComponent packageName

/-- The request URL built by `getPackageVersion`:
`{registryUrl}/{encodeURIComponent(packageName)}/{version}` — the version
is interpolated as-is, without encoding. -/
def getPackageVersionUrl (registryUrl packageName version : String) : String :=
  registryUrl ++ "/" ++ encodeURIComponent packageName ++ "/" ++ version

/-- The request URL built by `getDownloadStats`:
`https://api.npmjs.org/downloads/point/{period}/{encodeURIComponent(packageName)}`. -/
def getDownloadStatsUrl (period packageName : String) : String :=
  "https://api.npmjs.org/downloads/point/" ++ period ++ "/" ++
    encodeURIComponent packageName

/-- The characters the `URLSearchParams` serializer
(`application/x-www-form-urlencoded`) leaves unescaped: `A-Z a-z 0-9 * - . _`. -/
def formSafeChar (c : Char) : Bool :=
  c.isAlpha || c.isDigit || c == '*' || c == '-' || c == '.' || c == '_'

/-- `application/x-www-form-urlencoded` escape of one byte: space becomes
`+`, safe bytes stay, the rest are percent-escaped. -/
def formEncodeByte (b : Nat) : String :=
  if b == 32 then "+"
  else if b < 128 && formSafeChar (Char.ofNat b) then
    String.singleton (Char.ofNat b)
  else percentEncodeByte b

/-- `application/x-www-form-urlencoded` serialization of one value. -/
def formEncode (s : String) : String :=
  String.join ((s.toList.map utf8Bytes).join.map formEncodeByte)

/-- The options object of `searchPackages`. -/
structure SearchOptions where
  limit : Option Nat := none
  offset : Option Nat := none
deriving Repr

/-- The request URL built by `searchPackages`: the v1 search path under
the registry base, with query string
`text={query}&size={limit or 20}&from={offset or 0}` serialized by
`URLSearchParams` and JavaScript `||` defaulting of the options. -/
def searchPackagesUrl (registryUrl query : String) (options : SearchOptions) :
    String :=
  registryUrl ++ "/-/v1/search?" ++
    "text=" ++ formEncode query ++
    "&size=" ++ formEncode (toString (jsOrNat options.limit 20)) ++
    "&from=" ++ formEncode (toString (jsOrNat options.offset 0))

/-- The observable result of one `fetchWithCache` invocation: the settled
value or rejection message, the cache state afterwards, how many times the
concurrency limiter was handed a task (`limiterCalls`), and the network
attempts and backoff delays of that task. -/
structure CallResult where
  result : Except String Json
  cache : CacheState
  limiterCalls : Nat
  attempts : Nat
  delays : List ℚ
deriving Repr

/-- The cache-miss path of `fetchWithCache`: hand
`() => this.fetchWithRetry(url)` to the limiter (one limiter call), and
cache the result only when it is a success. -/
def fetchMiss (maxRetries : Nat) (c : CacheState) (now : Nat) (url : String)
    (transport : Nat → FetchOutcome) (jitter : Nat → ℚ) : CallResult :=
  let r := fetchWithRetry transport jitter ⟨0, maxRetries, 1000⟩
  match r.result with
  | .ok v => ⟨.ok v, c.set now url v, 1, r.attempts, r.delays⟩
  | .error msg => ⟨.error msg, c, 1, r.attempts, r.delays⟩

/-- `fetchWithCache`: `const cached = this.cache.get(url); if (cached)
return cached;` — note the JavaScript truthiness test — otherwise run the
retrying fetch under the limiter and cache a successful result. -/
def fetchWithCache (maxRetries : Nat) (cache : CacheState) (now : Nat)
    (url : String) (transport : Nat → FetchOutcome) (jitter : Nat → ℚ) :
    CallResult :=
  match CacheState.get cache now url with
  | (some v, c1) =>
    if v.truthy then ⟨.ok v, c1, 0, 0, []⟩
    else fetchMiss maxRetries c1 now url transport jitter
  | (none, c1) => fetchMiss maxRetries c1 now url transport jitter

/-- `getPackage` through the pipeline: build the URL and call
`fetchWithCache`. -/
def getPackageCall (client : RegistryClient) (cache : CacheState) (now : Nat)
    (packageName : String) (transport : Nat → FetchOutcome)
    (jitter : Nat → ℚ) : CallResult :=
  fetchWithCache client.maxRetries cache now
    (getPackageUrl client.registryUrl packageName) transport jitter

/-- The state of the `p-limit` concurrency limiter: the bound, the number
of currently running tasks and the number of queued tasks. Modelled from
the spec: the `p-limit` dependency is not part of the repository source;
§4.1/§5 of the spec describe it as a global counting semaphore. -/
structure LimiterState where
  limit : Nat
  active : Nat
  waiting : Nat
deriving Repr, DecidableEq

/-- An event at the limiter: a new task arrives (`enqueue`), or a running
task settles (`complete`). Modelled from the spec (`p-limit` dependency). -/
inductive LimiterEvent where
  | enqueue
  | complete
deriving Repr, DecidableEq

/-- One limiter transition: an arriving task starts immediately when a
slot is free and queues otherwise; a settling task frees its slot and, if
tasks are queued, the next queued task starts at once. Modelled from the
spec (`p-limit` dependency): slots are released unconditionally on success
or failure. -/
def pLimitStep (s : LimiterState) : LimiterEvent → LimiterState
  | .enqueue =>
    if s.active < s.limit then { s with active := s.active + 1 }
    else { s with waiting := s.waiting + 1 }
  | .complete =>
    if s.waiting > 0 then
      { s with active := s.active - 1 + 1, waiting := s.waiting - 1 }
    else { s with active := s.active - 1 }

/-- A freshly constructed limiter: no task running, none queued. -/
def pLimitInit (limit : Nat) : LimiterState := ⟨limit, 0, 0⟩

/-- The limiter state after a sequence of events. -/
def pLimitRun (limit : Nat) (events : List LimiterEvent) : LimiterState :=
  events.foldl pLimitStep (pLimitInit limit)

lemma classifyTry_429 (b : Except JsError Json) :
    classifyTry (.response 429 b) = .rate429 := rfl

lemma classifyTry_of_429 {tr : Nat → FetchOutcome} {i : Nat}
    (h : ∃ body, tr i = FetchOutcome.response 429 body) :
    classifyTry (tr i) = .rate429 := by
  obtain ⟨b, hb⟩ := h
  rw [hb]
  exact classifyTry_429 b

/-- A transport that answers 429 on every attempt drives `fetchWithRetry`
to exhaust the budget: starting at attempt `a` with `m - a = k` remaining
retries, it makes `k + 1` attempts, sleeps the backoff for attempts
`a, a+1, …, a+k-1`, and rejects with the rate-limit message. -/
lemma fetchWithRetry_all429 (tr : Nat → FetchOutcome) (jit : Nat → ℚ)
    (bd : ℚ) (m : Nat) (h : ∀ i, classifyTry (tr i) = TryStep.rate429) :
    ∀ k a, m - a = k → a ≤ m →
      fetchWithRetry tr jit ⟨a, m, bd⟩ =
        ⟨Except.error "Rate limit exceeded. Please try again later.", k + 1,
         (List.range' a k).map (fun i => calculateBackoff ⟨i, m, bd⟩ (jit i))⟩ := by
  intro k
  induction k with
  | zero =>
    intro a hk ha
    have ham : a = m := by omega
    subst ham
    rw [fetchWithRetry]
    simp [h]
  | succ k ih =>
    intro a hk ha
    have ham : a < m := by omega
    rw [fetchWithRetry]
    simp only [h]
    rw [ih (a + 1) (by omega) (by omega)]
    simp [ham, List.range'_succ]

/-- A transport that answers 429 for `n` attempts starting at `a` and then
delivers a parsed success body drives `fetchWithRetry` to `n + 1` attempts
and that value, provided the budget allows reaching attempt `a + n`. -/
lemma fetchWithRetry_429_then_ok (tr : Nat → FetchOutcome) (jit : Nat → ℚ)
    (bd : ℚ) (m : Nat) (v : Json) :
    ∀ n a, (∀ i, i < n → classifyTry (tr (a + i)) = TryStep.rate429) →
      classifyTry (tr (a + n)) = TryStep.value v → a + n ≤ m →
      fetchWithRetry tr jit ⟨a, m, bd⟩ =
        ⟨Except.ok v, n + 1,
         (List.range' a n).map (fun i => calculateBackoff ⟨i, m, bd⟩ (jit i))⟩ := by
  intro n
  induction n with
  | zero =>
    intro a _ hok _
    rw [fetchWithRetry]
    simp only [Nat.add_zero] at hok
    simp [hok]
  | succ n ih =>
    intro a h429 hok ham
    have ha : a < m := by omega
    rw [fetchWithRetry]
    have h0 : classifyTry (tr a) = TryStep.rate429 := by
      have := h429 0 (by omega)
      simpa using this
    simp only [h0]
    rw [ih (a + 1) (fun i hi => by
        have := h429 (i + 1) (by omega)
        simpa [Nat.add_assoc, Nat.add_comm 1 i] using this)
      (by simpa [Nat.add_assoc, Nat.add_comm 1 n] using hok) (by omega)]
    simp [ha, List.range'_succ]

/-- C1. The claim predicts that a timed-out (aborted) attempt is treated
as transient and retried while budget remains. The code does the opposite:
with the default budget of 3 retries fully available, an aborted first
attempt produces exactly 1 attempt, no backoff, and an immediate
`Request timeout` rejection. -/
theorem c1_timeout_counterexample :
    fetchWithRetry
        (fun _ => .thrown ⟨"AbortError", "This operation was aborted"⟩)
        (fun _ => 0) ⟨0, 3, 1000⟩
      = ⟨.error "Request timeout", 1, []⟩ := by
  rw [fetchWithRetry]
  simp [classifyTry]

/-- C1 (amended). A per-attempt timeout (the fetch rejecting with an
`AbortError`) is never retried: `fetchWithRetry` rejects immediately with
`Request timeout` after exactly one attempt, regardless of the remaining
retry budget. -/
theorem c1_timeout_not_retried (tr : Nat → FetchOutcome) (jit : Nat → ℚ)
    (cfg : RetryConfig) (msg : String)
    (h : tr cfg.attempt = .thrown ⟨"AbortError", msg⟩) :
    fetchWithRetry tr jit cfg = ⟨.error "Request timeout", 1, []⟩ := by
  rw [fetchWithRetry]
  rw [h]
  simp [classifyTry]

/-- C1 witness: the amended theorem applied to a concrete aborted attempt. -/
theorem c1_timeout_witness :
    fetchWithRetry (fun _ => .thrown ⟨"AbortError", "aborted"⟩) (fun _ => 0)
        ⟨0, 5, 1000⟩
      = ⟨.error "Request timeout", 1, []⟩ :=
  c1_timeout_not_retried _ _ _ "aborted" rfl

/-- C7. Against an always-429 transport exhausting the budget, the backoff
delay slept before 1-indexed retry `k` is `calculateBackoff` at attempt
index `k - 1`, i.e. exactly `baseDelay * 2^(k-1) + jitter`, and since the
jitter draw lies in `[0, 1000)`, the delay is `≥ baseDelay * 2^(k-1)` and
`< baseDelay * 2^(k-1) + 1000`. -/
theorem c7_backoff_delay (m : Nat) (bd : ℚ) (jit : Nat → ℚ)
    (tr : Nat → FetchOutcome)
    (h429 : ∀ i, ∃ body, tr i = FetchOutcome.response 429 body)
    (hj0 : ∀ i, 0 ≤ jit i) (hj1 : ∀ i, jit i < 1000)
    (k : Nat) (hk1 : 1 ≤ k) (hkm : k ≤ m) :
    (fetchWithRetry tr jit ⟨0, m, bd⟩).delays.get? (k - 1)
        = some (calculateBackoff ⟨k - 1, m, bd⟩ (jit (k - 1))) ∧
    calculateBackoff ⟨k - 1, m, bd⟩ (jit (k - 1))
        = bd * 2 ^ (k - 1) + jit (k - 1) ∧
    bd * 2 ^ (k - 1) ≤ calculateBackoff ⟨k - 1, m, bd⟩ (jit (k - 1)) ∧
    calculateBackoff ⟨k - 1, m, bd⟩ (jit (k - 1))
        < bd * 2 ^ (k - 1) + 1000 := by
  have hall := fetchWithRetry_all429 tr jit bd m
    (fun i => classifyTry_of_429 (h429 i)) m 0 (by omega) (by omega)
  refine ⟨?_, rfl, ?_, ?_⟩
  · rw [hall]
    have hlt : k - 1 < m := by omega
    simp only []
    rw [List.get?_map]
    rw [List.get?_range' _ _ hlt]  -- range' 0 m get? (k-1) = some (0 + (k-1))
    simp
  · simpa [calculateBackoff] using hj0 (k - 1)
  · have := hj1 (k - 1)
    simp only [calculateBackoff]
    linarith

/-- C7 witness: with base delay 1000, zero jitter and an always-429
transport with budget 3, retry 2 sleeps exactly `1000 * 2^1 + 0 = 2000`,
within the stated bounds. -/
theorem c7_backoff_witness :
    (fetchWithRetry (fun _ => .response 429 (.ok .null)) (fun _ => 0)
        ⟨0, 3, 1000⟩).delays.get? 1
      = some (calculateBackoff ⟨1, 3, 1000⟩ 0) ∧
    calculateBackoff ⟨1, 3, 1000⟩ 0 = 1000 * 2 ^ 1 + 0 ∧
    (1000 : ℚ) * 2 ^ 1 ≤ calculateBackoff ⟨1, 3, 1000⟩ 0 ∧
    calculateBackoff ⟨1, 3, 1000⟩ 0 < 1000 * 2 ^ 1 + 1000 := by
  have h := c7_backoff_delay 3 1000 (fun _ => 0)
    (fun _ => .response 429 (.ok .null)) (fun _ => ⟨.ok .null, rfl⟩)
    (fun _ => le_refl 0) (fun _ => by norm_num) 2 (by omega) (by omega)
  simpa using h

/-- C9. JavaScript `||` defaulting makes an explicit `0` indistinguishable
from an absent field: a constructor config with every numeric field set to
0 resolves to the documented defaults (so `maxRetries: 0` cannot configure
a no-retry client), and `searchPackages` with `limit: 0` builds the same
URL as the default, which carries `size=20`. -/
theorem c9_zero_config_defaults :
    mkRegistryClient
        { timeout := some 0, maxRetries := some 0, cacheMaxSize := some 0,
          cacheTTL := some 0, maxConcurrent := some 0 }
      = { registryUrl := "https://registry.npmjs.org", timeout := 10000,
          maxRetries := 3, cacheMaxSize := 500, cacheTTL := 300000,
          maxConcurrent := 10 } ∧
    (∀ (r q : String) (off : Option Nat),
      searchPackagesUrl r q { limit := some 0, offset := off }
        = searchPackagesUrl r q { limit := none, offset := off }) ∧
    jsIncludes
        (searchPackagesUrl "https://registry.npmjs.org" "react"
          { limit := some 0 }) "size=20"
      = true := by
  refine ⟨by decide, fun r q off => rfl, by decide⟩

/-- C10. `getPackage`, `getPackageVersion` and `getDownloadStats` apply
`encodeURIComponent` to the package name when building the request URL
(so the scoped name `@scope/name` appears as `%40scope%2Fname`), while the
version argument of `getPackageVersion` is interpolated unencoded (a `/`
in the version stays a raw `/`). -/
theorem c10_url_encoding :
    (∀ base name, getPackageUrl base name
        = base ++ "/" ++ encodeURIComponent name) ∧
    (∀ base name ver, getPackageVersionUrl base name ver
        = base ++ "/" ++ encodeURIComponent name ++ "/" ++ ver) ∧
    (∀ period name, getDownloadStatsUrl period name
        = "https://api.npmjs.org/downloads/point/" ++ period ++ "/" ++
            encodeURIComponent name) ∧
    encodeURIComponent "@scope/name" = "%40scope%2Fname" ∧
    getPackageVersionUrl "https://registry.npmjs.org" "@scope/name" "1.x/2"
      = "https://registry.npmjs.org/%40scope%2Fname/1.x/2" := by
  refine ⟨fun _ _ => rfl, fun _ _ _ => rfl, fun _ _ => rfl, by decide, by decide⟩

lemma classifyTry_success {s : Nat} (hs : s < 400) (v : Json) :
    classifyTry (.response s (.ok v)) = .value v := by
  have h1 : s ≠ 429 := by omega
  have h2 : s ≠ 404 := by omega
  have h3 : ¬ 400 ≤ s := by omega
  simp [classifyTry, h1, h2, h3]

/-- C2. Against any transport: if the first `k - 1` attempts are answered
429 and attempt `k` (1-indexed, `k ≤ maxRetries + 1`) is answered with a
parsed success, the call resolves with that body after exactly `k`
attempts; if every attempt is answered 429, the call makes exactly
`maxRetries + 1` attempts and rejects with the rate-limit-exceeded
message. -/
theorem c2_rate_limit_budget (maxRetries : Nat) (bd : ℚ) (jit : Nat → ℚ) :
    (∀ (tr : Nat → FetchOutcome) (k s : Nat) (v : Json),
      1 ≤ k → k ≤ maxRetries + 1 →
      (∀ i, i < k - 1 → ∃ body, tr i = FetchOutcome.response 429 body) →
      tr (k - 1) = FetchOutcome.response s (.ok v) → s < 400 →
      (fetchWithRetry tr jit ⟨0, maxRetries, bd⟩).result = .ok v ∧
      (fetchWithRetry tr jit ⟨0, maxRetries, bd⟩).attempts = k) ∧
    (∀ tr : Nat → FetchOutcome,
      (∀ i, ∃ body, tr i = FetchOutcome.response 429 body) →
      (fetchWithRetry tr jit ⟨0, maxRetries, bd⟩).attempts = maxRetries + 1 ∧
      (fetchWithRetry tr jit ⟨0, maxRetries, bd⟩).result
        = .error "Rate limit exceeded. Please try again later.") := by
  constructor
  · intro tr k s v hk1 hk2 h429 hok hs
    have hrun := fetchWithRetry_429_then_ok tr jit bd maxRetries v (k - 1) 0
      (fun i hi => by
        have := classifyTry_of_429 (h429 i hi)
        simpa using this)
      (by
        have : classifyTry (tr (k - 1)) = .value v := by
          rw [hok]; exact classifyTry_success hs v
        simpa using this)
      (by omega)
    rw [hrun]
    refine ⟨rfl, ?_⟩
    show k - 1 + 1 = k
    omega
  · intro tr h429
    have hrun := fetchWithRetry_all429 tr jit bd maxRetries
      (fun i => classifyTry_of_429 (h429 i)) maxRetries 0 (by omega) (by omega)
    rw [hrun]
    exact ⟨rfl, rfl⟩

/-- C2 witness: with the default budget of 3 retries, a transport
answering 429 then 200 resolves in exactly 2 attempts, and an always-429
transport exhausts exactly 4 attempts before rejecting rate-limited. -/
theorem c2_rate_limit_witness :
    ((fetchWithRetry
        (fun n => if n == 0 then .response 429 (.ok .null)
                  else .response 200 (.ok (.str "doc")))
        (fun _ => 0) ⟨0, 3, 1000⟩).result = .ok (.str "doc") ∧
     (fetchWithRetry
        (fun n => if n == 0 then .response 429 (.ok .null)
                  else .response 200 (.ok (.str "doc")))
        (fun _ => 0) ⟨0, 3, 1000⟩).attempts = 2) ∧
    ((fetchWithRetry (fun _ => .response 429 (.ok .null)) (fun _ => 0)
        ⟨0, 3, 1000⟩).attempts = 4 ∧
     (fetchWithRetry (fun _ => .response 429 (.ok .null)) (fun _ => 0)
        ⟨0, 3, 1000⟩).result
       = .error "Rate limit exceeded. Please try again later.") := by
  have h := c2_rate_limit_budget 3 1000 (fun _ => 0)
  refine ⟨h.1 _ 2 200 (.str "doc") (by omega) (by omega) ?_ rfl (by omega),
          h.2 _ (fun i => ⟨.ok .null, rfl⟩)⟩
  intro i hi
  have hi0 : i = 0 := by omega
  subst hi0
  exact ⟨.ok .null, rfl⟩

lemma errorBranchRaise_name (j : Json) (s : Nat) :
    (errorBranchRaise j s).name = "TypeError" ∨
      (errorBranchRaise j s).name = "Error" := by
  unfold errorBranchRaise jsMember
  cases j <;> simp
  case obj fields =>
    cases (fields.find? (fun p => p.1 == "error")).map (fun p => p.2) with
    | none => simp
    | some v =>
      by_cases hv : v.truthy <;> simp [hv]

lemma classifyTry_400 {s : Nat} (h4 : 400 ≤ s) (h429 : s ≠ 429)
    (h404 : s ≠ 404) (j : Json) :
    classifyTry (.response s (.ok j)) = .raised (errorBranchRaise j s) := by
  simp [classifyTry, h429, h404, h4]

/-- C6 counterexample. The claim predicts that every ≥ 400 status other
than 429 fails after exactly one attempt. But the error thrown in the
≥ 400 branch is caught by the same `catch` block that classifies transient
network errors by message text: a 400 response whose body is
`{"error": "fetch failed"}` is retried through the whole budget, making 4
attempts. -/
theorem c6_nontransient_counterexample :
    (fetchWithRetry
        (fun _ => .response 400 (.ok (.obj [("error", .str "fetch failed")])))
        (fun _ => 0) ⟨0, 3, 1000⟩).attempts = 4 ∧
    (fetchWithRetry
        (fun _ => .response 400 (.ok (.obj [("error", .str "fetch failed")])))
        (fun _ => 0) ⟨0, 3, 1000⟩).result = .error "fetch failed" := by
  have htr : isTransientMsg "fetch failed" = true := by decide
  constructor <;>
    simp [fetchWithRetry, classifyTry, errorBranchRaise, jsMember,
      Json.truthy, Json.toJSString, htr]

/-- C6 (amended). A 404 response always fails after exactly one attempt
with the message `Package not found`, which contains the `not found`
marker. Any other status ≥ 400 except 429 fails after exactly one attempt
with the message derived from its error body, provided that message does
not contain one of the transient markers (`ECONNRESET`, `ETIMEDOUT`,
`fetch failed`) — otherwise the catch block retries it. A 500 response
with a normal error body yields a message distinguishable from the
not-found and rate-limited messages. -/
theorem c6_nontransient_no_retry :
    (∀ (tr : Nat → FetchOutcome) (jit : Nat → ℚ) (cfg : RetryConfig)
        (b : Except JsError Json),
      tr cfg.attempt = .response 404 b →
      fetchWithRetry tr jit cfg = ⟨.error "Package not found", 1, []⟩ ∧
      jsIncludes "Package not found" "not found" = true) ∧
    (∀ (tr : Nat → FetchOutcome) (jit : Nat → ℚ) (cfg : RetryConfig)
        (s : Nat) (j : Json),
      tr cfg.attempt = .response s (.ok j) → 400 ≤ s → s ≠ 429 → s ≠ 404 →
      isTransientMsg (errorBranchRaise j s).message = false →
      fetchWithRetry tr jit cfg
        = ⟨.error (errorBranchRaise j s).message, 1, []⟩) ∧
    (fetchWithRetry
        (fun _ => .response 500
          (.ok (.obj [("error", .str "Internal Server Error")])))
        (fun _ => 0) ⟨0, 3, 1000⟩
      = ⟨.error "Internal Server Error", 1, []⟩ ∧
     "Internal Server Error" ≠ "Package not found" ∧
     "Internal Server Error" ≠ "Rate limit exceeded. Please try again later.") := by
  refine ⟨?_, ?_, ?_⟩
  · intro tr jit cfg b h
    have htr : isTransientMsg "Package not found" = false := by decide
    rw [fetchWithRetry, h]
    exact ⟨by simp [classifyTry, htr], by decide⟩
  · intro tr jit cfg s j h h4 h429 h404 htrans
    rw [fetchWithRetry, h, classifyTry_400 h4 h429 h404 j]
    have hname : ((errorBranchRaise j s).name == "AbortError") = false := by
      rcases errorBranchRaise_name j s with hn | hn <;> simp [hn]
    simp [hname, htrans]
  · refine ⟨?_, by decide, by decide⟩
    have htr : isTransientMsg "Internal Server Error" = false := by decide
    simp [fetchWithRetry, classifyTry, errorBranchRaise, jsMember,
      Json.truthy, Json.toJSString, htr]

/-- C6 witness: the amended theorem applied to a concrete 404 response and
to a concrete 418 response with body `{"error": "teapot"}`. -/
theorem c6_nontransient_witness :
    (fetchWithRetry (fun _ => .response 404 (.ok .null)) (fun _ => 0)
        ⟨0, 3, 1000⟩ = ⟨.error "Package not found", 1, []⟩ ∧
     jsIncludes "Package not found" "not found" = true) ∧
    fetchWithRetry (fun _ => .response 418 (.ok (.obj [("error", .str "teapot")])))
        (fun _ => 0) ⟨0, 3, 1000⟩
      = ⟨.error (errorBranchRaise (.obj [("error", .str "teapot")]) 418).message,
         1, []⟩ := by
  have hmsg : (errorBranchRaise (.obj [("error", Json.str "teapot")]) 418).message
      = "teapot" := by
    simp [errorBranchRaise, jsMember, Json.truthy, Json.toJSString]
  refine ⟨c6_nontransient_no_retry.1 _ _ _ (.ok .null) rfl,
          c6_nontransient_no_retry.2.1 _ _ _ 418 _ rfl (by omega) (by omega)
            (by omega) (by rw [hmsg]; decide)⟩

/-- The TTL-relevant and value content of a cache entry: key, value and
insertion time (recency is excluded: `get` refreshes it on hits). -/
def entryData (e : CacheEntry) : String × Json × Nat :=
  (e.key, e.value, e.insertedAt)

/-- Whether `cache.get(url)` at `now` returns a JavaScript-truthy value,
i.e. whether `if (cached)` in `fetchWithCache` takes the hit branch. -/
def truthyLiveHit (c : CacheState) (now : Nat) (k : String) : Bool :=
  match (CacheState.get c now k).1 with
  | some v => v.truthy
  | none => false

lemma fetchWithCache_hit1 {cache : CacheState} {now : Nat} {url : String}
    {v : Json} (m : Nat) (tr : Nat → FetchOutcome) (jit : Nat → ℚ)
    (h1 : (CacheState.get cache now url).1 = some v) (hv : v.truthy = true) :
    fetchWithCache m cache now url tr jit
      = ⟨.ok v, (CacheState.get cache now url).2, 0, 0, []⟩ := by
  unfold fetchWithCache
  rcases hg : CacheState.get cache now url with ⟨o, c1⟩
  rw [hg] at h1
  simp only at h1
  subst h1
  simp [hv]

lemma fetchWithCache_not_hit {cache : CacheState} {now : Nat} {url : String}
    (m : Nat) (tr : Nat → FetchOutcome) (jit : Nat → ℚ)
    (h : truthyLiveHit cache now url = false) :
    fetchWithCache m cache now url tr jit
      = fetchMiss m (CacheState.get cache now url).2 now url tr jit := by
  unfold fetchWithCache
  unfold truthyLiveHit at h
  rcases hg : CacheState.get cache now url with ⟨o, c1⟩
  rw [hg] at h
  cases o with
  | some v =>
    simp only at h
    simp [h]
  | none => simp

lemma fetchMiss_limiterCalls (m : Nat) (c : CacheState) (now : Nat)
    (url : String) (tr : Nat → FetchOutcome) (jit : Nat → ℚ) :
    (fetchMiss m c now url tr jit).limiterCalls = 1 := by
  unfold fetchMiss
  dsimp only
  cases hr : (fetchWithRetry tr jit ⟨0, m, 1000⟩).result <;> rfl

lemma fetchMiss_error_cache {m : Nat} {c : CacheState} {now : Nat}
    {url : String} {tr : Nat → FetchOutcome} {jit : Nat → ℚ} {msg : String}
    (h : (fetchMiss m c now url tr jit).result = .error msg) :
    (fetchMiss m c now url tr jit).cache = c := by
  unfold fetchMiss at h ⊢
  dsimp only at h ⊢
  cases hr : (fetchWithRetry tr jit ⟨0, m, 1000⟩).result with
  | ok v => rw [hr] at h; simp at h
  | error e => rfl

lemma fetchMiss_ok_cache {m : Nat} {c : CacheState} {now : Nat}
    {url : String} {tr : Nat → FetchOutcome} {jit : Nat → ℚ} {v : Json}
    (h : (fetchMiss m c now url tr jit).result = .ok v) :
    (fetchMiss m c now url tr jit).cache = c.set now url v := by
  unfold fetchMiss at h ⊢
  dsimp only at h ⊢
  cases hr : (fetchWithRetry tr jit ⟨0, m, 1000⟩).result with
  | ok w =>
    rw [hr] at h
    dsimp only at h
    cases h
    rfl
  | error e => rw [hr] at h; simp at h

lemma fetchWithCache_limiterCalls (m : Nat) (c : CacheState) (now : Nat)
    (url : String) (tr : Nat → FetchOutcome) (jit : Nat → ℚ) :
    (fetchWithCache m c now url tr jit).limiterCalls
      = if truthyLiveHit c now url then 0 else 1 := by
  by_cases hth : truthyLiveHit c now url = true
  · rw [if_pos hth]
    unfold truthyLiveHit at hth
    rcases hg1 : (CacheState.get c now url).1 with _ | v
    · rw [hg1] at hth; simp at hth
    · rw [hg1] at hth
      simp only at hth
      rw [fetchWithCache_hit1 m tr jit hg1 hth]
  · have hth' : truthyLiveHit c now url = false := by
      cases h : truthyLiveHit c now url
      · rfl
      · exact absurd h hth
    rw [if_neg hth, fetchWithCache_not_hit m tr jit hth']
    exact fetchMiss_limiterCalls _ _ _ _ _ _

/-- C4 (amended). A call for a URL whose cached value is live and
JavaScript-truthy short-circuits the pipeline: it returns the stored value
with zero limiter dispatches, zero network attempts and no backoff; the
cache is only touched to refresh the entry's recency. -/
theorem c4_cache_hit_short_circuit (m : Nat) (cache : CacheState)
    (now : Nat) (url : String) (tr : Nat → FetchOutcome) (jit : Nat → ℚ)
    (v : Json) (h1 : (CacheState.get cache now url).1 = some v)
    (hv : v.truthy = true) :
    fetchWithCache m cache now url tr jit
      = ⟨.ok v, (CacheState.get cache now url).2, 0, 0, []⟩ :=
  fetchWithCache_hit1 m tr jit h1 hv

/-- C4 witness: the amended theorem applied to a cache holding a truthy
document for the URL. -/
theorem c4_cache_hit_witness :
    fetchWithCache 3 ((emptyCache 500 300000).set 0 "u" (.str "doc")) 7 "u"
        (fun _ => .response 404 (.ok .null)) (fun _ => 0)
      = ⟨.ok (.str "doc"),
         (CacheState.get ((emptyCache 500 300000).set 0 "u" (.str "doc")) 7 "u").2,
         0, 0, []⟩ := by
  refine c4_cache_hit_short_circuit 3 _ 7 "u" _ _ (.str "doc") ?_ rfl
  simp [CacheState.set, CacheState.get, emptyCache, CacheEntry.live]

/-- C4 counterexample. The claim quantifies over every value currently
stored in the cache, but `if (cached)` uses JavaScript truthiness: with
the falsy document `false` stored (live) for the URL, the call does not
short-circuit — it dispatches the limiter and performs a network attempt. -/
theorem c4_cache_hit_counterexample :
    (CacheState.get ((emptyCache 500 300000).set 0 "u" (.bool false)) 0 "u").1
      = some (.bool false) ∧
    (fetchWithCache 3 ((emptyCache 500 300000).set 0 "u" (.bool false)) 0 "u"
        (fun _ => .response 200 (.ok (.str "fresh"))) (fun _ => 0)).limiterCalls
      = 1 ∧
    (fetchWithCache 3 ((emptyCache 500 300000).set 0 "u" (.bool false)) 0 "u"
        (fun _ => .response 200 (.ok (.str "fresh"))) (fun _ => 0)).attempts
      = 1 := by
  refine ⟨by simp [CacheState.set, CacheState.get, emptyCache, CacheEntry.live], ?_, ?_⟩ <;>
    simp [fetchWithCache, fetchMiss, fetchWithRetry, classifyTry,
      CacheState.set, CacheState.get, emptyCache, CacheEntry.live, Json.truthy]

lemma set_ttl (c : CacheState) (now : Nat) (k : String) (v : Json) :
    (c.set now k v).ttl = c.ttl := by
  unfold CacheState.set
  split_ifs <;> rfl

lemma get_after_insert (c : CacheState) (t0 t1 : Nat) (url : String)
    (v : Json) (hnone : c.entries.find? (fun e => e.key == url) = none)
    (ht1 : t1 < t0 + c.ttl) :
    (CacheState.get (c.set t0 url v) t1 url).1 = some v := by
  have hset : (c.set t0 url v).entries.find? (fun e => e.key == url)
      = some ⟨url, v, t0, t0⟩ := by
    unfold CacheState.set
    rw [hnone]
    simp only [Option.isSome_none, Bool.false_eq_true, if_false]
    split_ifs <;> simp [List.find?_cons]
  unfold CacheState.get
  rw [hset]
  have hlive : CacheEntry.live ⟨url, v, t0, t0⟩ (c.set t0 url v).ttl t1 = true := by
    unfold CacheEntry.live
    rw [set_ttl]
    simpa using ht1
  simp [hlive]

/-- C3 (amended). If the cache holds no entry for the URL and the first
call succeeds with a JavaScript-truthy value, then a second call for the
same URL within the TTL window dispatches the limiter exactly once in
total: the first call fetches (one limiter dispatch), the second is a pure
cache hit (zero dispatches, zero attempts) returning exactly the stored
value. -/
theorem c3_cache_dedup (m : Nat) (cache : CacheState) (t0 t1 : Nat)
    (url : String) (tr1 tr2 : Nat → FetchOutcome) (jit1 jit2 : Nat → ℚ)
    (v : Json)
    (hnone : cache.entries.find? (fun e => e.key == url) = none)
    (hok : (fetchWithCache m cache t0 url tr1 jit1).result = .ok v)
    (hv : v.truthy = true)
    (ht1 : t1 < t0 + cache.ttl) :
    (fetchWithCache m cache t0 url tr1 jit1).limiterCalls = 1 ∧
    (fetchWithCache m (fetchWithCache m cache t0 url tr1 jit1).cache t1 url
        tr2 jit2).result = .ok v ∧
    (fetchWithCache m (fetchWithCache m cache t0 url tr1 jit1).cache t1 url
        tr2 jit2).limiterCalls = 0 ∧
    (fetchWithCache m (fetchWithCache m cache t0 url tr1 jit1).cache t1 url
        tr2 jit2).attempts = 0 := by
  have hget0 : CacheState.get cache t0 url = (none, cache) := by
    unfold CacheState.get
    rw [hnone]
  have hth : truthyLiveHit cache t0 url = false := by
    unfold truthyLiveHit
    rw [hget0]
  have hrun : fetchWithCache m cache t0 url tr1 jit1
      = fetchMiss m cache t0 url tr1 jit1 := by
    rw [fetchWithCache_not_hit m tr1 jit1 hth, hget0]
  rw [hrun] at hok ⊢
  have hcache : (fetchMiss m cache t0 url tr1 jit1).cache
      = cache.set t0 url v := fetchMiss_ok_cache hok
  rw [hcache]
  have hget1 : (CacheState.get (cache.set t0 url v) t1 url).1 = some v :=
    get_after_insert cache t0 t1 url v hnone ht1
  have hhit := fetchWithCache_hit1 m tr2 jit2 hget1 hv
  rw [hhit]
  exact ⟨fetchMiss_limiterCalls m cache t0 url tr1 jit1, rfl, rfl, rfl⟩

/-- C3 witness: on an empty cache, a first call that fetches the document
`"doc"` and a second call 100 ms later hit the stated pattern: one limiter
dispatch in total, and the second call returns the stored value with zero
attempts. -/
theorem c3_cache_dedup_witness :
    (fetchWithCache 3 (emptyCache 500 300000) 0 "u"
        (fun _ => .response 200 (.ok (.str "doc"))) (fun _ => 0)).limiterCalls
      = 1 ∧
    (fetchWithCache 3
        (fetchWithCache 3 (emptyCache 500 300000) 0 "u"
          (fun _ => .response 200 (.ok (.str "doc"))) (fun _ => 0)).cache
        100 "u" (fun _ => .response 404 (.ok .null)) (fun _ => 0)).result
      = .ok (.str "doc") ∧
    (fetchWithCache 3
        (fetchWithCache 3 (emptyCache 500 300000) 0 "u"
          (fun _ => .response 200 (.ok (.str "doc"))) (fun _ => 0)).cache
        100 "u" (fun _ => .response 404 (.ok .null)) (fun _ => 0)).limiterCalls
      = 0 ∧
    (fetchWithCache 3
        (fetchWithCache 3 (emptyCache 500 300000) 0 "u"
          (fun _ => .response 200 (.ok (.str "doc"))) (fun _ => 0)).cache
        100 "u" (fun _ => .response 404 (.ok .null)) (fun _ => 0)).attempts
      = 0 := by
  refine c3_cache_dedup 3 (emptyCache 500 300000) 0 100 "u" _ _ _ _
    (.str "doc") rfl ?_ rfl (by norm_num [emptyCache])
  simp [fetchWithCache, fetchMiss, fetchWithRetry, classifyTry,
    CacheState.get, emptyCache]

/-- C3 counterexample. The claim quantifies over all stored values, but a
successful response whose JSON body is the falsy document `0` is stored
and then never recognized as a hit: two sequential calls for the same URL
at the same instant (well within the TTL) both dispatch the limiter, i.e.
two network fetches instead of at most one. -/
theorem c3_cache_dedup_counterexample :
    (fetchWithCache 3 (emptyCache 500 300000) 0 "u"
        (fun _ => .response 200 (.ok (.num 0))) (fun _ => 0)).result
      = .ok (.num 0) ∧
    (fetchWithCache 3 (emptyCache 500 300000) 0 "u"
        (fun _ => .response 200 (.ok (.num 0))) (fun _ => 0)).limiterCalls
      = 1 ∧
    (fetchWithCache 3
        (fetchWithCache 3 (emptyCache 500 300000) 0 "u"
          (fun _ => .response 200 (.ok (.num 0))) (fun _ => 0)).cache
        0 "u" (fun _ => .response 200 (.ok (.num 0))) (fun _ => 0)).limiterCalls
      = 1 := by
  refine ⟨?_, ?_, ?_⟩ <;>
    simp [fetchWithCache, fetchMiss, fetchWithRetry, classifyTry,
      CacheState.get, CacheState.set, emptyCache, CacheEntry.live,
      Json.truthy]

lemma map_entryData_bump (es : List CacheEntry) (k : String) (n : Nat) :
    (bumpEntries es k n).map entryData = es.map entryData := by
  unfold bumpEntries
  induction es with
  | nil => rfl
  | cons e t ih =>
    simp only [List.map_cons, ih]
    congr 1
    by_cases h : e.key == k
    · simp [h, entryData]
    · simp [h]

lemma get_snd_spec (c : CacheState) (now : Nat) (k : String) :
    (CacheState.get c now k).2.entries.map entryData
        = c.entries.map entryData ∧
    (CacheState.get c now k).2.ttl = c.ttl := by
  unfold CacheState.get
  cases hf : c.entries.find? (fun e => e.key == k) with
  | none => exact ⟨rfl, rfl⟩
  | some e =>
    dsimp only
    by_cases hl : e.live c.ttl now = true
    · rw [if_pos hl]
      exact ⟨map_entryData_bump c.entries k now, rfl⟩
    · rw [if_neg hl]
      exact ⟨rfl, rfl⟩

lemma find?_bump (es : List CacheEntry) (k : String) (n : Nat) :
    (bumpEntries es k n).find? (fun e => e.key == k)
      = (es.find? (fun e => e.key == k)).map
          (fun x => if x.key == k then { x with lastAccess := n } else x) := by
  induction es with
  | nil => rfl
  | cons e t ih =>
    by_cases h : (e.key == k) = true
    · have hkey : ((if e.key == k then ({ e with lastAccess := n } : CacheEntry)
          else e).key == k) = true := by
        rw [if_pos h]; exact h
      simp only [bumpEntries, List.map_cons]
      rw [@List.find?_cons_of_pos _ (fun e : CacheEntry => e.key == k) _ _ hkey,
        @List.find?_cons_of_pos _ (fun e : CacheEntry => e.key == k) _ _ h]
      have h2 : e.key = k := by simpa using h
      simp [h2]
    · have hkey : ¬ ((if e.key == k then ({ e with lastAccess := n } : CacheEntry)
          else e).key == k) = true := by
        rw [if_neg h]; exact h
      simp only [bumpEntries, List.map_cons]
      rw [@List.find?_cons_of_neg _ (fun e : CacheEntry => e.key == k) _ _ hkey,
        @List.find?_cons_of_neg _ (fun e : CacheEntry => e.key == k) _ _ h]
      exact ih

/-- Refreshing recency of the entry for `k` does not change whether a
later lookup of `k` sees a truthy live value (the value and insertion time
are untouched). -/
lemma truthyLiveHit_bump (c : CacheState) (now now2 : Nat) (k : String) :
    truthyLiveHit { c with entries := bumpEntries c.entries k now } now2 k
      = truthyLiveHit c now2 k := by
  unfold truthyLiveHit CacheState.get
  dsimp only
  rw [find?_bump]
  cases hf : c.entries.find? (fun e => e.key == k) with
  | none => rfl
  | some e =>
    have hk : (e.key == k) = true := by
      have h0 := List.find?_some hf
      exact h0
    dsimp only [Option.map]
    rw [if_pos hk]
    by_cases hl : e.live c.ttl now2 = true
    · have hl2 : CacheEntry.live { e with lastAccess := now } c.ttl now2 = true := by
        unfold CacheEntry.live at hl ⊢
        exact hl
      rw [if_pos hl, if_pos hl2]
    · have hl2 : ¬ CacheEntry.live { e with lastAccess := now } c.ttl now2 = true := by
        unfold CacheEntry.live at hl ⊢
        exact hl
      rw [if_neg hl, if_neg hl2]

/-- The cache state returned by `get` is either untouched or has only the
recency of the looked-up entry refreshed. -/
lemma get_snd_eq (c : CacheState) (now : Nat) (k : String) :
    (CacheState.get c now k).2 = c ∨
    (CacheState.get c now k).2
      = { c with entries := bumpEntries c.entries k now } := by
  unfold CacheState.get
  cases hf : c.entries.find? (fun e => e.key == k) with
  | none => left; rfl
  | some e =>
    dsimp only
    by_cases hl : e.live c.ttl now = true
    · rw [if_pos hl]; right; rfl
    · rw [if_neg hl]; left; rfl

/-- A failed truthy-hit test only gets more final with time: with no
truthy live value for `k` at `now`, there is none at any `now2 ≥ now`
either (entries only expire). -/
lemma truthyLiveHit_mono (c : CacheState) (now now2 : Nat) (k : String)
    (h : truthyLiveHit c now k = false) (hle : now ≤ now2) :
    truthyLiveHit c now2 k = false := by
  unfold truthyLiveHit CacheState.get at h ⊢
  cases hf : c.entries.find? (fun e => e.key == k) with
  | none => rfl
  | some e =>
    rw [hf] at h
    dsimp only at h ⊢
    by_cases hl2 : e.live c.ttl now2 = true
    · have hl1 : e.live c.ttl now = true := by
        unfold CacheEntry.live at hl2 ⊢
        simp only [decide_eq_true_eq] at hl2 ⊢
        omega
      rw [if_pos hl1] at h
      rw [if_pos hl2]
      dsimp only at h ⊢
      exact h
    · rw [if_neg hl2]

/-- A failed truthy-hit test is stable across the recency side effect of
the failed `get` itself and across the passage of time. -/
lemma truthyLiveHit_get_snd (c : CacheState) (now now2 : Nat) (k : String)
    (h : truthyLiveHit c now k = false) (hle : now ≤ now2) :
    truthyLiveHit (CacheState.get c now k).2 now2 k = false := by
  rcases get_snd_eq c now k with heq | heq <;> rw [heq]
  · exact truthyLiveHit_mono c now now2 k h hle
  · rw [truthyLiveHit_bump]
    exact truthyLiveHit_mono c now now2 k h hle

/-- C5. A failed call (any error kind, including after retries are
exhausted) leaves the cache without any new entry — every entry's key,
value and insertion time is exactly as before (only recency metadata may
move) — and a subsequent call for the same URL at any later time goes back
to the network (dispatches the limiter). -/
theorem c5_failures_not_cached (m : Nat) (cache : CacheState) (now : Nat)
    (url : String) (tr : Nat → FetchOutcome) (jit : Nat → ℚ) (msg : String)
    (hfail : (fetchWithCache m cache now url tr jit).result = .error msg) :
    (fetchWithCache m cache now url tr jit).cache.entries.map entryData
        = cache.entries.map entryData ∧
    ∀ (now2 : Nat) (tr2 : Nat → FetchOutcome) (jit2 : Nat → ℚ), now ≤ now2 →
      (fetchWithCache m (fetchWithCache m cache now url tr jit).cache now2 url
          tr2 jit2).limiterCalls = 1 := by
  have hth : truthyLiveHit cache now url = false := by
    by_cases h : truthyLiveHit cache now url = true
    · exfalso
      unfold truthyLiveHit at h
      rcases hg1 : (CacheState.get cache now url).1 with _ | v
      · rw [hg1] at h; simp at h
      · rw [hg1] at h
        dsimp only at h
        rw [fetchWithCache_hit1 m tr jit hg1 h] at hfail
        simp at hfail
    · simpa using h
  have hrun : fetchWithCache m cache now url tr jit
      = fetchMiss m (CacheState.get cache now url).2 now url tr jit :=
    fetchWithCache_not_hit m tr jit hth
  rw [hrun] at hfail ⊢
  have hc : (fetchMiss m (CacheState.get cache now url).2 now url tr jit).cache
      = (CacheState.get cache now url).2 := fetchMiss_error_cache hfail
  rw [hc]
  constructor
  · exact (get_snd_spec cache now url).1
  · intro now2 tr2 jit2 hle
    rw [fetchWithCache_limiterCalls]
    rw [truthyLiveHit_get_snd cache now now2 url hth hle]
    rfl

/-- C5 witness: a 404-failing call on an empty cache stores nothing, and a
later call for the same URL dispatches the limiter again. -/
theorem c5_failures_witness :
    (fetchWithCache 3 (emptyCache 500 300000) 0 "u"
        (fun _ => .response 404 (.ok .null)) (fun _ => 0)).cache.entries.map
          entryData
      = (emptyCache 500 300000).entries.map entryData ∧
    (fetchWithCache 3
        (fetchWithCache 3 (emptyCache 500 300000) 0 "u"
          (fun _ => .response 404 (.ok .null)) (fun _ => 0)).cache
        5 "u" (fun _ => .response 404 (.ok .null)) (fun _ => 0)).limiterCalls
      = 1 := by
  have hfail : (fetchWithCache 3 (emptyCache 500 300000) 0 "u"
      (fun _ => .response 404 (.ok .null)) (fun _ => 0)).result
      = .error "Package not found" := by
    have htm : isTransientMsg "Package not found" = false := by decide
    simp [fetchWithCache, fetchMiss, fetchWithRetry, classifyTry,
      CacheState.get, emptyCache, htm]
  have h := c5_failures_not_cached 3 (emptyCache 500 300000) 0 "u"
    (fun _ => .response 404 (.ok .null)) (fun _ => 0) "Package not found" hfail
  exact ⟨h.1, h.2 5 (fun _ => .response 404 (.ok .null)) (fun _ => 0)
    (by omega)⟩

lemma jsOrNat_pos (x : Option Nat) (d : Nat) (hd : 0 < d) :
    0 < jsOrNat x d := by
  unfold jsOrNat
  cases x with
  | none => exact hd
  | some v =>
    dsimp only
    by_cases h : (v == 0) = true
    · rw [if_pos h]; exact hd
    · rw [if_neg h]
      have : v ≠ 0 := by simpa using h
      omega

lemma pLimitStep_inv (s : LimiterState) (ev : LimiterEvent)
    (h1 : s.active ≤ s.limit) (h2 : 0 < s.waiting → s.active = s.limit)
    (h3 : 1 ≤ s.limit) :
    (pLimitStep s ev).active ≤ (pLimitStep s ev).limit ∧
    (0 < (pLimitStep s ev).waiting →
      (pLimitStep s ev).active = (pLimitStep s ev).limit) ∧
    (pLimitStep s ev).limit = s.limit := by
  cases ev with
  | enqueue =>
    unfold pLimitStep
    dsimp only
    by_cases h : s.active < s.limit
    · rw [if_pos h]
      dsimp only
      exact ⟨by omega, fun hw => absurd (h2 hw) (by omega), rfl⟩
    · rw [if_neg h]
      dsimp only
      exact ⟨h1, fun _ => by omega, rfl⟩
  | complete =>
    unfold pLimitStep
    dsimp only
    by_cases h : s.waiting > 0
    · have ha : s.active = s.limit := h2 h
      rw [if_pos h]
      dsimp only
      exact ⟨by omega, fun _ => by omega, rfl⟩
    · rw [if_neg h]
      dsimp only
      exact ⟨by omega, fun hw => absurd hw (by omega), rfl⟩

lemma pLimitRun_inv (events : List LimiterEvent) :
    ∀ (s : LimiterState), s.active ≤ s.limit →
      (0 < s.waiting → s.active = s.limit) → 1 ≤ s.limit →
      (events.foldl pLimitStep s).active ≤ s.limit ∧
      (events.foldl pLimitStep s).limit = s.limit := by
  induction events with
  | nil => intro s h1 h2 h3; exact ⟨h1, rfl⟩
  | cons ev t ih =>
    intro s h1 h2 h3
    have hstep := pLimitStep_inv s ev h1 h2 h3
    have := ih (pLimitStep s ev)
      (by rw [← hstep.2.2] at hstep ⊢; exact hstep.1)
      hstep.2.1 (hstep.2.2 ▸ h3)
    rw [List.foldl_cons]
    rw [hstep.2.2] at this
    exact this

/-- C8 (spec-modelled: the `p-limit` dependency is modelled as the
counting semaphore the spec describes). For every sequence of limiter
events — task arrivals from any of the four operations and task
completions, in any interleaving — the number of simultaneously running
tasks (each running one network attempt at a time) never exceeds the
resolved `maxConcurrent`; prefix-closure follows since every prefix is
itself a quantified event list. The unconfigured default bound is 10. -/
theorem c8_concurrency_bound (config : RegistryClientConfig)
    (events : List LimiterEvent) :
    (pLimitRun (mkRegistryClient config).maxConcurrent events).active
      ≤ (mkRegistryClient config).maxConcurrent ∧
    (mkRegistryClient {}).maxConcurrent = 10 := by
  have hpos : 1 ≤ (mkRegistryClient config).maxConcurrent :=
    jsOrNat_pos config.maxConcurrent 10 (by omega)
  have h := pLimitRun_inv events
    (pLimitInit (mkRegistryClient config).maxConcurrent)
    (by simp [pLimitInit]) (by simp [pLimitInit]) (by simpa [pLimitInit])
  exact ⟨h.1, rfl⟩
